import Mathlib

/-!
Shallow embedding of the file-analysis core of DocuLens
(`backend/app/services/file_analyzer.py`) and proofs about it.

Modelling conventions:
* Python strings are Lean `String`s; the regex character classes `\w` and `\s`
  are modelled over their ASCII meaning (the analyzer is exercised on source
  code, where this coincides with the Python behaviour).
* Each regex used by the source is compiled by hand into a deterministic
  scanner that reproduces the backtracking behaviour of the original pattern;
  the derivation is noted next to each scanner.
* `list(set(xs))` is modelled by `pySetList`, de-duplication keeping the first
  occurrence.  The real CPython iteration order over a `set` of strings depends
  on the per-process hash seed; the model fixes one order, which is faithful
  for membership, size and emptiness facts (the only facts proved through it).
* Python exceptions escaping a function are modelled with `Except PyExc`;
  functions that cannot raise return plain values.
* `ast.parse` and `ast.unparse` are external dependencies of the analyzer, not
  repository code; the Python analyzer is therefore parameterised by an
  abstract parser producing the (already unparsed) syntax tree.
-/

/-- The apostrophe character, used when building Python string data. -/
def squoteC : Char := Char.ofNat 39

/-- The character `"`. -/
def dquoteC : Char := Char.ofNat 34

/-- ASCII approximation of the characters matched by `str.strip()`
and the regex class `\s`: space, tab, newline, carriage return, form feed,
vertical tab. -/
def isPyWs (c : Char) : Bool :=
  c = ' ' || c = Char.ofNat 9 || c = Char.ofNat 10 || c = Char.ofNat 13 ||
  c = Char.ofNat 12 || c = Char.ofNat 11

/-- ASCII approximation of the regex class `\w`: letters, digits, underscore. -/
def isWordCh (c : Char) : Bool :=
  c.isAlpha || c.isDigit || c = '_'

/-- ASCII uppercase letter (the regex class `[A-Z]`). -/
def isUpperAZ (c : Char) : Bool :=
  ('A' ≤ c && c ≤ 'Z')

/-- `str.strip()`. -/
def pyStrip (s : String) : String :=
  String.mk (((s.toList.dropWhile isPyWs).reverse.dropWhile isPyWs).reverse)

/-- `str.upper()` (ASCII). -/
def pyUpper (s : String) : String :=
  String.mk (s.toList.map Char.toUpper)

/-- `str.lower()` (ASCII). -/
def pyLower (s : String) : String :=
  String.mk (s.toList.map Char.toLower)

/-- `needle in hay` for Python strings (substring containment). -/
def listHasSub (needle : List Char) : List Char → Bool
  | [] => needle.isEmpty
  | c :: rest => needle.isPrefixOf (c :: rest) || listHasSub needle rest

/-- Substring containment on `String`s. -/
def hasSub (needle hay : String) : Bool :=
  listHasSub needle.toList hay.toList

/-- `list(set(xs))`, modelled as de-duplication keeping first occurrences
(see the header note on CPython set ordering). -/
def pySetList (xs : List String) : List String :=
  xs.foldl (fun acc x => if acc.contains x then acc else acc ++ [x]) []

/-- Concatenation of the lists produced for each element, in order. -/
def listConcatMap (f : α → List β) : List α → List β
  | [] => []
  | a :: r => f a ++ listConcatMap f r

/-- `str.split(sep)` for a one-character separator (the only form the
analyzer uses): empty pieces are kept, and the empty string yields `[""]`. -/
def pySplitGo (sep : Char) (acc : List Char) : List Char → List String
  | [] => [String.mk acc.reverse]
  | c :: rest =>
    if c = sep then String.mk acc.reverse :: pySplitGo sep [] rest
    else pySplitGo sep (c :: acc) rest

/-- `str.split(sep)` on a `String`. -/
def pySplit (sep : Char) (s : String) : List String :=
  pySplitGo sep [] s.toList

/-- `str.startswith(pre)`. -/
def pyStartsWith (pre s : String) : Bool :=
  pre.toList.isPrefixOf s.toList

/-- Case-sensitive literal match: consume `lit` from the front of `s`. -/
def litM (lit : List Char) (s : List Char) : Option (List Char) :=
  if lit.isPrefixOf s then some (s.drop lit.length) else none

/-- Case-insensitive literal match (models a pattern compiled with
`re.IGNORECASE`). -/
def litMCI (lit : List Char) (s : List Char) : Option (List Char) :=
  if (lit.map Char.toLower).isPrefixOf (s.map Char.toLower) then
    some (s.drop lit.length)
  else none

/-- `\s*`: drop the maximal whitespace run (the only run the pattern can keep,
because every continuation in this file starts with a non-whitespace token). -/
def wsStar (s : List Char) : List Char :=
  s.dropWhile isPyWs

/-- `\s+`: at least one whitespace character, then the maximal run. -/
def wsPlus (s : List Char) : Option (List Char) :=
  match s with
  | c :: rest => if isPyWs c then some (rest.dropWhile isPyWs) else none
  | [] => none

/-- Capture a run `first rest*` (e.g. the identifier classes of the
source patterns); fails when the first character does not match. -/
def captureRun (first rest : Char → Bool) (s : List Char) :
    Option (String × List Char) :=
  match s with
  | c :: t =>
    if first c then
      let run := t.takeWhile rest
      some (String.mk (c :: run), t.drop run.length)
    else none
  | [] => none

/-- `\b` at the boundary between `prev` (the character before the scanner
position, `none` at the start of the text) and the character the match would
start with. -/
def wordBoundary (prev : Option Char) (s : List Char) : Bool :=
  let pw := match prev with
    | some c => isWordCh c
    | none => false
  let cw := match s with
    | c :: _ => isWordCh c
    | [] => false
  pw != cw

/-- `^` under `re.MULTILINE`: start of text or just after a newline. -/
def lineStart (prev : Option Char) : Bool :=
  match prev with
  | none => true
  | some c => c = Char.ofNat 10

/-- Number of newline characters in a list. -/
def countNl (cs : List Char) : Nat :=
  (cs.filter (fun c => c = Char.ofNat 10)).length

/-- One step of `re.findall`/`re.finditer`: try the anchored matcher at every
position, left to right; on a match, resume after the matched text (the
source scanners never produce empty matches here, and the driver advances by
at least one character).  Each result is paired with the 1-based line number
of the match start, as computed by the source for `finditer` matches. -/
def reScanGo (m : Option Char → List Char → Option (α × List Char)) :
    Nat → Option Char → Nat → List Char → List (α × Nat)
  | 0, _, _, _ => []
  | _, _, _, [] => []
  | fuel + 1, prev, ln, c :: rest =>
    match m prev (c :: rest) with
    | some (a, rest1) =>
      let s := c :: rest
      let n := Nat.max (s.length - rest1.length) 1
      let consumed := s.take n
      (a, ln) ::
        reScanGo m fuel consumed.getLast? (ln + countNl consumed) (s.drop n)
    | none =>
      reScanGo m fuel (some c)
        (ln + (if c = Char.ofNat 10 then 1 else 0)) rest

/-- `re.finditer` over a string, keeping 1-based line numbers. -/
def reScanLn (m : Option Char → List Char → Option (α × List Char))
    (s : String) : List (α × Nat) :=
  reScanGo m (s.toList.length + 1) none 1 s.toList

/-- `re.findall` over a string. -/
def reScan (m : Option Char → List Char → Option (α × List Char))
    (s : String) : List α :=
  (reScanLn m s).map Prod.fst

/-- `re.search` as a boolean. -/
def reSearch (m : Option Char → List Char → Option (α × List Char))
    (s : String) : Bool :=
  !(reScanLn m s).isEmpty

/-- The `FunctionInfo` dataclass of the source. -/
structure FunctionInfo where
  name : String
  args : List String
  docstring : Option String
  decorators : List String
  returns : Option String
  line_number : Nat
  is_async : Bool

/-- The `ClassInfo` dataclass of the source. -/
structure ClassInfo where
  name : String
  bases : List String
  docstring : Option String
  methods : List String
  line_number : Nat

/-- The `PythonAnalysis` dataclass; `from_imports` entries are the
`(module, names)` dictionaries of the source. -/
structure PythonAnalysis where
  file_path : String
  module_docstring : Option String
  imports : List String
  from_imports : List (String × List String)
  functions : List FunctionInfo
  classes : List ClassInfo
  global_variables : List String
  constants : List String
  entry_point : Bool

/-- The `SQLAnalysis` dataclass. -/
structure SQLAnalysis where
  file_path : String
  tables_referenced : List String
  tables_created : List String
  tables_modified : List String
  ctes : List String
  joins : List String
  aggregations : List String
  subqueries : Nat
  statement_types : List String
  comments : List String

/-- The `NotebookAnalysis` dataclass. -/
structure NotebookAnalysis where
  file_path : String
  title : Option String
  total_cells : Nat
  code_cells : Nat
  markdown_cells : Nat
  imports : List String
  functions : List String
  visualizations : List String
  data_sources : List String
  headings : List String

/-- The `JavaScriptAnalysis` dataclass. -/
structure JavaScriptAnalysis where
  file_path : String
  imports : List String
  exports : List String
  functions : List FunctionInfo
  classes : List ClassInfo
  constants : List String
  jsx_components : List String
  hooks_used : List String

/-- The dictionary returned by the dispatcher: one of the four `to_dict`
success shapes, or an error dictionary carrying `file_path`, the attempted
`file_type` tag, and the error message. -/
inductive Envelope where
  | python (a : PythonAnalysis)
  | sql (a : SQLAnalysis)
  | ipynb (a : NotebookAnalysis)
  | javascript (a : JavaScriptAnalysis)
  | error (file_path : String) (file_type : String) (message : String)

/-- The `file_path` entry of the returned dictionary. -/
def Envelope.file_path : Envelope → String
  | .python a => a.file_path
  | .sql a => a.file_path
  | .ipynb a => a.file_path
  | .javascript a => a.file_path
  | .error p _ _ => p

/-- The `file_type` entry of the returned dictionary (set by each `to_dict`,
or by the error branches). -/
def Envelope.file_type : Envelope → String
  | .python _ => "python"
  | .sql _ => "sql"
  | .ipynb _ => "ipynb"
  | .javascript _ => "javascript"
  | .error _ t _ => t

/-- A Python exception escaping a component (the notebook analyzer can let
`AttributeError`/`TypeError` escape). -/
inductive PyExc where
  | attributeError (msg : String)
  | typeError (msg : String)

/-- JSON document model (the result of `json.loads`); numbers keep their
lexeme, which the analyzer never inspects numerically. -/
inductive JValue where
  | null
  | bool (b : Bool)
  | num (lexeme : String)
  | str (s : String)
  | arr (elems : List JValue)
  | obj (fields : List (String × JValue))

/-- The `{` character. -/
def lbraceC : Char := Char.ofNat 123

/-- The `}` character. -/
def rbraceC : Char := Char.ofNat 125

/-- JSON inter-token whitespace (space, tab, newline, carriage return). -/
def isJsonWs (c : Char) : Bool :=
  c = ' ' || c = Char.ofNat 9 || c = Char.ofNat 10 || c = Char.ofNat 13

/-- Hexadecimal digit value. -/
def hexVal (c : Char) : Option Nat :=
  if c.isDigit then some (c.toNat - 48)
  else if 'a' ≤ c && c ≤ 'f' then some (c.toNat - 87)
  else if 'A' ≤ c && c ≤ 'F' then some (c.toNat - 55)
  else none

/-- Python-`dict` insertion: a repeated key keeps its original position and
takes the new value. -/
def objInsert (fields : List (String × JValue)) (k : String) (v : JValue) :
    List (String × JValue) :=
  if fields.any (fun kv => kv.1 == k) then
    fields.map (fun kv => if kv.1 == k then (k, v) else kv)
  else fields ++ [(k, v)]

/-- `dict.get(k)` (returning `None` as `none`). -/
def pyDictGet (fields : List (String × JValue)) (k : String) : Option JValue :=
  (fields.find? (fun kv => kv.1 == k)).map (fun kv => kv.2)

/-- JSON string body after the opening quote, handling the escape sequences
`json.loads` accepts (surrogate pairs are not recombined — the analyzer never
needs them). -/
def parseJStr (acc : List Char) : List Char → Except String (String × List Char)
  | [] => .error "Unterminated string"
  | c :: rest =>
    if c = dquoteC then .ok (String.mk acc.reverse, rest)
    else if c = '\\' then
      match rest with
      | [] => .error "Unterminated string"
      | e :: r2 =>
        if e = dquoteC then parseJStr (dquoteC :: acc) r2
        else if e = '\\' then parseJStr ('\\' :: acc) r2
        else if e = '/' then parseJStr ('/' :: acc) r2
        else if e = 'b' then parseJStr (Char.ofNat 8 :: acc) r2
        else if e = 'f' then parseJStr (Char.ofNat 12 :: acc) r2
        else if e = 'n' then parseJStr (Char.ofNat 10 :: acc) r2
        else if e = 'r' then parseJStr (Char.ofNat 13 :: acc) r2
        else if e = 't' then parseJStr (Char.ofNat 9 :: acc) r2
        else if e = 'u' then
          match r2 with
          | h1 :: h2 :: h3 :: h4 :: r3 =>
            match hexVal h1, hexVal h2, hexVal h3, hexVal h4 with
            | some a, some b, some c2, some d =>
              parseJStr (Char.ofNat (((a * 16 + b) * 16 + c2) * 16 + d) :: acc) r3
            | _, _, _, _ => .error "Invalid unicode escape"
          | _ => .error "Invalid unicode escape"
        else .error "Invalid escape"
    else if c.toNat < 32 then .error "Invalid control character"
    else parseJStr (c :: acc) rest

/-- JSON number lexeme: `-?(0|[1-9][0-9]*)(\.[0-9]+)?([eE][+-]?[0-9]+)?`,
the grammar of `json.loads`. -/
def parseJNum (s : List Char) : Except String (String × List Char) :=
  let (negPart, s1) :=
    match s with
    | c :: t => if c = '-' then ([c], t) else (([] : List Char), s)
    | [] => ([], s)
  match s1 with
  | [] => .error "Expecting value"
  | c :: t =>
    if c = '0' || c.isDigit then
      let (intPart, r1) :=
        if c = '0' then ([c], t)
        else
          let run := t.takeWhile Char.isDigit
          (c :: run, t.drop run.length)
      let (fracPart, r2) :=
        match r1 with
        | p :: d :: t2 =>
          if p = '.' && d.isDigit then
            let run := t2.takeWhile Char.isDigit
            (p :: d :: run, t2.drop run.length)
          else (([] : List Char), r1)
        | _ => ([], r1)
      let (expPart, r3) :=
        match r2 with
        | e :: t2 =>
          if e = 'e' || e = 'E' then
            let (sgn, t3) :=
              match t2 with
              | c2 :: t4 => if c2 = '+' || c2 = '-' then ([c2], t4) else (([] : List Char), t2)
              | [] => ([], t2)
            match t3 with
            | d :: t4 =>
              if d.isDigit then
                let run := t4.takeWhile Char.isDigit
                (e :: (sgn ++ d :: run), t4.drop run.length)
              else ([], r2)
            | [] => ([], r2)
          else ([], r2)
        | [] => ([], r2)
      .ok (String.mk (negPart ++ intPart ++ fracPart ++ expPart), r3)
    else .error "Expecting value"

mutual

/-- One JSON value (recursive descent, fuel bounded by nesting depth, which
is bounded by the input length). -/
def parseJVal : Nat → List Char → Except String (JValue × List Char)
  | 0, _ => .error "Too deeply nested"
  | fuel + 1, s0 =>
    let s := s0.dropWhile isJsonWs
    if "null".toList.isPrefixOf s then .ok (.null, s.drop 4)
    else if "true".toList.isPrefixOf s then .ok (.bool true, s.drop 4)
    else if "false".toList.isPrefixOf s then .ok (.bool false, s.drop 5)
    else
      match s with
      | [] => .error "Expecting value"
      | c :: rest =>
        if c = dquoteC then
          match parseJStr [] rest with
          | .error e => .error e
          | .ok (t, r) => .ok (.str t, r)
        else if c = '[' then
          let r1 := rest.dropWhile isJsonWs
          match r1 with
          | c2 :: r2 =>
            if c2 = ']' then .ok (.arr [], r2)
            else
              match parseJArrElems fuel r1 with
              | .error e => .error e
              | .ok (vs, r3) => .ok (.arr vs, r3)
          | [] => .error "Expecting value"
        else if c = lbraceC then
          let r1 := rest.dropWhile isJsonWs
          match r1 with
          | c2 :: r2 =>
            if c2 = rbraceC then .ok (.obj [], r2)
            else
              match parseJObjFields fuel r1 [] with
              | .error e => .error e
              | .ok (fs, r3) => .ok (.obj fs, r3)
          | [] => .error "Expecting property name"
        else if c = '-' || c.isDigit then
          match parseJNum s with
          | .error e => .error e
          | .ok (lex, r) => .ok (.num lex, r)
        else .error "Expecting value"

/-- Comma-separated array elements up to the closing bracket. -/
def parseJArrElems : Nat → List Char → Except String (List JValue × List Char)
  | 0, _ => .error "Too deeply nested"
  | fuel + 1, s =>
    match parseJVal fuel s with
    | .error e => .error e
    | .ok (v, r) =>
      let r1 := r.dropWhile isJsonWs
      match r1 with
      | c :: r2 =>
        if c = ',' then
          match parseJArrElems fuel r2 with
          | .error e => .error e
          | .ok (vs, r3) => .ok (v :: vs, r3)
        else if c = ']' then .ok ([v], r2)
        else .error "Expecting delimiter"
      | [] => .error "Expecting delimiter"

/-- `"key": value` members up to the closing brace, with dict semantics for
repeated keys. -/
def parseJObjFields : Nat → List Char → List (String × JValue) →
    Except String (List (String × JValue) × List Char)
  | 0, _, _ => .error "Too deeply nested"
  | fuel + 1, s, acc =>
    let s1 := s.dropWhile isJsonWs
    match s1 with
    | c :: rest =>
      if c = dquoteC then
        match parseJStr [] rest with
        | .error e => .error e
        | .ok (k, r) =>
          let r1 := r.dropWhile isJsonWs
          match r1 with
          | c2 :: r2 =>
            if c2 = ':' then
              match parseJVal fuel r2 with
              | .error e => .error e
              | .ok (v, r3) =>
                let acc1 := objInsert acc k v
                let r4 := r3.dropWhile isJsonWs
                match r4 with
                | c3 :: r5 =>
                  if c3 = ',' then parseJObjFields fuel r5 acc1
                  else if c3 = rbraceC then .ok (acc1, r5)
                  else .error "Expecting delimiter"
                | [] => .error "Expecting delimiter"
            else .error "Expecting colon delimiter"
          | [] => .error "Expecting colon delimiter"
      else .error "Expecting property name"
    | [] => .error "Expecting property name"

end

/-- `json.loads`: parse one document and reject trailing garbage. -/
def jsonLoads (content : String) : Except String JValue :=
  match parseJVal (content.length + 1) content.toList with
  | .error e => .error e
  | .ok (v, r) =>
    if (r.dropWhile isJsonWs).isEmpty then .ok v else .error "Extra data"

/-- A decorator expression, as far as `_get_decorator_name` inspects it
(`ast.Name`, `ast.Attribute`, `ast.Call`, anything else). -/
inductive PyDeco where
  | name (id : String)
  | attrE (value : PyDeco) (attrName : String)
  | call (func : PyDeco)
  | otherE

/-- `FileAnalyzer._get_decorator_name`. -/
def getDecoratorName : PyDeco → String
  | .name id => id
  | .attrE v a => getDecoratorName v ++ "." ++ a
  | .call f => getDecoratorName f
  | .otherE => ""

/-- An assignment target (`ast.Name` or anything else). -/
inductive PyTarget where
  | nameT (id : String)
  | otherT

/-- Python statements, carrying exactly the node data `analyze_python` reads.
Docstrings (`ast.get_docstring`), return annotations and base-class
expressions (`ast.unparse`) are supplied pre-rendered by the abstract parser.
Compound statements that the analyzer does not inspect directly (`if`, `for`,
`with`, ...) appear as `otherS` with their nested statements, so that
`ast.walk` still reaches every nesting level. -/
inductive PyStmt where
  | importS (names : List String)
  | importFromS (module : String) (names : List String)
  | functionDef (name : String) (args : List String) (docstring : Option String)
      (decorators : List PyDeco) (returns : Option String) (lineno : Nat)
      (isAsync : Bool) (body : List PyStmt)
  | classDef (name : String) (bases : List String) (docstring : Option String)
      (lineno : Nat) (body : List PyStmt)
  | assignS (targets : List PyTarget)
  | otherS (body : List PyStmt)

/-- The parsed module: `ast.get_docstring(tree)` and `tree.body`. -/
structure PyModule where
  docstring : Option String
  body : List PyStmt

/-- Child statements visited by `ast.walk`. -/
def stmtChildren : PyStmt → List PyStmt
  | .functionDef _ _ _ _ _ _ _ b => b
  | .classDef _ _ _ _ b => b
  | .otherS b => b
  | _ => []

mutual

/-- Number of statement nodes in a statement (itself included). -/
def stmtCount : PyStmt → Nat
  | .functionDef _ _ _ _ _ _ _ b => 1 + bodyCount b
  | .classDef _ _ _ _ b => 1 + bodyCount b
  | .otherS b => 1 + bodyCount b
  | _ => 1

/-- Number of statement nodes in a list of statements. -/
def bodyCount : List PyStmt → Nat
  | [] => 0
  | s :: r => stmtCount s + bodyCount r

end

/-- Breadth-first queue step of `ast.walk` (each step pops one node and
enqueues its children; the fuel equals the total node count, so the queue
always empties first). -/
def walkGo : Nat → List PyStmt → List PyStmt
  | 0, _ => []
  | _, [] => []
  | fuel + 1, s :: rest => s :: walkGo fuel (rest ++ stmtChildren s)

/-- `ast.walk` in breadth-first order over the module body. -/
def astWalk (body : List PyStmt) : List PyStmt :=
  walkGo (bodyCount body) body

/-- The four lists `analyze_python` grows while walking the tree. -/
structure PyCollect where
  imports : List String
  from_imports : List (String × List String)
  functions : List FunctionInfo
  classes : List ClassInfo

/-- One iteration of the `ast.walk` loop of `analyze_python`. -/
def collectNode (acc : PyCollect) (node : PyStmt) : PyCollect :=
  match node with
  | .importS names => { acc with imports := acc.imports ++ names }
  | .importFromS m names =>
    { acc with from_imports := acc.from_imports ++ [(m, names)] }
  | .functionDef nm args doc decos ret ln isAsync _ =>
    { acc with functions := acc.functions ++
        [{ name := nm, args := args, docstring := doc,
           decorators := decos.map getDecoratorName, returns := ret,
           line_number := ln, is_async := isAsync }] }
  | .classDef nm bases doc ln body =>
    { acc with classes := acc.classes ++
        [{ name := nm, bases := bases, docstring := doc,
           methods := body.filterMap (fun n =>
             match n with
             | .functionDef mn _ _ _ _ _ _ _ => some mn
             | _ => none),
           line_number := ln }] }
  | _ => acc

/-- `str.isupper()`: at least one cased character and no lowercase one
(ASCII). -/
def pyIsUpperStr (s : String) : Bool :=
  s.toList.any Char.isAlpha && s.toList.all (fun c => !c.isAlpha || c.isUpper)

/-- The top-level-assignment scan of `analyze_python`: `(constants,
global_variables)`. -/
def topAssigns (body : List PyStmt) : List String × List String :=
  body.foldl (fun acc s =>
    match s with
    | .assignS targets =>
      targets.foldl (fun acc2 t =>
        match t with
        | .nameT id =>
          if pyIsUpperStr id then (acc2.1 ++ [id], acc2.2)
          else (acc2.1, acc2.2 ++ [id])
        | .otherT => acc2) acc
    | _ => acc) ([], [])

/-- The literal `if __name__ == "__main__"`. -/
def entryNeedle1 : String := "if __name__ == \"__main__\""

/-- The same guard with single quotes. -/
def entryNeedle2 : String :=
  "if __name__ == " ++ String.mk [squoteC] ++ "__main__" ++ String.mk [squoteC]

/-- `FileAnalyzer.analyze_python`, parameterised by the external `ast.parse`
(`.error` is a `SyntaxError` with its rendered message). -/
def FileAnalyzer.analyze_python (astParse : String → Except String PyModule)
    (content file_path : String) : Envelope :=
  match astParse content with
  | .error e => .error file_path "python" ("Syntax error: " ++ e)
  | .ok tree =>
    let col := (astWalk tree.body).foldl collectNode ⟨[], [], [], []⟩
    let ta := topAssigns tree.body
    .python
      { file_path := file_path
        module_docstring := tree.docstring
        imports := col.imports
        from_imports := col.from_imports
        functions := col.functions
        classes := col.classes
        global_variables := ta.2
        constants := ta.1
        entry_point := hasSub entryNeedle1 content || hasSub entryNeedle2 content }

/-- Newline. -/
def nlC : Char := Char.ofNat 10

/-- `[a-zA-Z_]`. -/
def isIdentStart (c : Char) : Bool := c.isAlpha || c = '_'

/-- `[a-zA-Z0-9_]`. -/
def isIdentCh (c : Char) : Bool := c.isAlpha || c.isDigit || c = '_'

/-- `[a-zA-Z0-9_.]`. -/
def isIdentDot (c : Char) : Bool := c.isAlpha || c.isDigit || c = '_' || c = '.'

/-- Case-insensitive keyword followed by `\s+`. -/
def kwWs (kw : String) (s : List Char) : Option (List Char) :=
  (litMCI kw.toList s).bind wsPlus

/-- `\b(?:FROM|JOIN)\s+([a-zA-Z_][a-zA-Z0-9_.]*)` with `re.IGNORECASE`
(the two keywords start with distinct letters, so the alternation is
deterministic). -/
def mSqlTable (prev : Option Char) (s : List Char) :
    Option (String × List Char) :=
  if !wordBoundary prev s then none
  else
    match litMCI "FROM".toList s with
    | some r1 => (wsPlus r1).bind (captureRun isIdentStart isIdentDot)
    | none =>
      match litMCI "JOIN".toList s with
      | some r1 => (wsPlus r1).bind (captureRun isIdentStart isIdentDot)
      | none => none

/-- `CREATE\s+(?:OR\s+REPLACE\s+)?(?:TEMP\s+|TEMPORARY\s+)?TABLE\s+`
`(?:IF\s+NOT\s+EXISTS\s+)?([a-zA-Z_][a-zA-Z0-9_.]*)` with `re.IGNORECASE`.
Each optional group is committed when it matches in full (its keywords cannot
also start the continuation), except the final one: when `IF NOT EXISTS`
matches but no identifier follows, the regex backtracks and captures `IF`
itself — reproduced by the fallback below. -/
def mSqlCreate (_ : Option Char) (s : List Char) :
    Option (String × List Char) :=
  match kwWs "CREATE" s with
  | none => none
  | some r1 =>
    let r2 :=
      match kwWs "OR" r1 with
      | some ra =>
        match kwWs "REPLACE" ra with
        | some rb => rb
        | none => r1
      | none => r1
    let r3 :=
      match kwWs "TEMP" r2 with
      | some ra => ra
      | none =>
        match kwWs "TEMPORARY" r2 with
        | some rb => rb
        | none => r2
    match kwWs "TABLE" r3 with
    | none => none
    | some r4 =>
      match (kwWs "IF" r4).bind (fun ra => (kwWs "NOT" ra).bind (kwWs "EXISTS")) with
      | some r5 =>
        match captureRun isIdentStart isIdentDot r5 with
        | some res => some res
        | none => captureRun isIdentStart isIdentDot r4
      | none => captureRun isIdentStart isIdentDot r4

/-- `(?:INSERT\s+INTO|UPDATE|DELETE\s+FROM)\s+([a-zA-Z_][a-zA-Z0-9_.]*)`
with `re.IGNORECASE` (distinct first letters make the alternation
deterministic). -/
def mSqlModify (_ : Option Char) (s : List Char) :
    Option (String × List Char) :=
  let head :=
    match (litMCI "INSERT".toList s).bind wsPlus with
    | some ra => litMCI "INTO".toList ra
    | none =>
      match litMCI "UPDATE".toList s with
      | some rb => some rb
      | none =>
        match (litMCI "DELETE".toList s).bind wsPlus with
        | some rc => litMCI "FROM".toList rc
        | none => none
  match head with
  | none => none
  | some r1 => (wsPlus r1).bind (captureRun isIdentStart isIdentDot)

/-- `WITH\s+([a-zA-Z_][a-zA-Z0-9_]*)\s+AS\s*\(` with `re.IGNORECASE`. -/
def mSqlCte (_ : Option Char) (s : List Char) : Option (String × List Char) :=
  (kwWs "WITH" s).bind fun r1 =>
    (captureRun isIdentStart isIdentCh r1).bind fun nr =>
      (wsPlus nr.2).bind fun r3 =>
        (litMCI "AS".toList r3).bind fun r4 =>
          match wsStar r4 with
          | c :: r5 => if c = '(' then some (nr.1, r5) else none
          | [] => none

/-- `JOIN` qualifiers, in the alternation order of the source pattern. -/
def sqlJoinQualifiers : List String :=
  ["LEFT", "RIGHT", "INNER", "OUTER", "CROSS", "FULL"]

/-- First qualifier matching case-insensitively at the front of `s` (their
first letters are pairwise distinct, so at most one matches). -/
def firstQualifier (s : List Char) : List String → Option (List Char)
  | [] => none
  | q :: rest =>
    match litMCI q.toList s with
    | some r => some r
    | none => firstQualifier s rest

/-- `\b((?:LEFT|RIGHT|INNER|OUTER|CROSS|FULL)?\s*JOIN)\b` with
`re.IGNORECASE`: the qualifier branch is tried first; if it fails the empty
qualifier branch is tried, exactly as the regex backtracks.  The capture is
the matched text in its original case. -/
def mSqlJoin (prev : Option Char) (s : List Char) :
    Option (String × List Char) :=
  if !wordBoundary prev s then none
  else
    let attempt : List Char → Option (List Char) := fun r =>
      match litMCI "JOIN".toList (wsStar r) with
      | some r3 =>
        (match r3 with
         | [] => some r3
         | c :: _ => if isWordCh c then none else some r3)
      | none => none
    let res :=
      match firstQualifier s sqlJoinQualifiers with
      | some rq =>
        match attempt rq with
        | some r3 => some r3
        | none => attempt s
      | none => attempt s
    match res with
    | some r3 => some (String.mk (s.take (s.length - r3.length)), r3)
    | none => none

/-- Aggregation names, in the alternation order of the source pattern. -/
def sqlAggKeywords : List String :=
  ["SUM", "COUNT", "AVG", "MIN", "MAX", "GROUP_CONCAT", "STRING_AGG"]

/-- Body of `\b(SUM|COUNT|AVG|MIN|MAX|GROUP_CONCAT|STRING_AGG)\s*\(` with
`re.IGNORECASE`; alternatives are tried in order and the capture keeps the
original case. -/
def firstAgg (s : List Char) : List String → Option (String × List Char)
  | [] => none
  | kw :: rest =>
    match litMCI kw.toList s with
    | some r1 =>
      (match wsStar r1 with
       | c :: r2 =>
         if c = '(' then some (String.mk (s.take kw.length), r2)
         else firstAgg s rest
       | [] => firstAgg s rest)
    | none => firstAgg s rest

/-- The aggregation matcher (word boundary, then the alternation). -/
def mSqlAgg (prev : Option Char) (s : List Char) :
    Option (String × List Char) :=
  if !wordBoundary prev s then none else firstAgg s sqlAggKeywords

/-- `\(\s*SELECT` with `re.IGNORECASE` (the subquery counter). -/
def mSqlSubq (_ : Option Char) (s : List Char) : Option (Unit × List Char) :=
  match s with
  | c :: rest =>
    if c = '(' then (litMCI "SELECT".toList (wsStar rest)).map (fun r => ((), r))
    else none
  | [] => none

/-- Largest number of characters `\s*`/`\s+` can keep when the whitespace run
reaches the end of the text and `(.+)$` must still match: the rightmost index
`k ≥ minWs` of `ws` holding a non-newline character. -/
def lastKeep (ws : List Char) (minWs : Nat) : Option Nat :=
  (List.range ws.length).foldl (fun acc i =>
    if minWs ≤ i && ws.getD i nlC != nlC then some i else acc) none

/-- The `\s*(.+)$` (or `\s+(.+)$` for `minWs = 1`) tail of a `re.MULTILINE`
pattern: the whitespace run is taken greedily (it may cross newlines); `(.+)`
then captures the maximal non-newline run, which always ends at `$`.  When
the whitespace run reaches the end of the text the quantifier backtracks to
the largest prefix whose following character is not a newline. -/
def tailWsCapture (minWs : Nat) (r1 : List Char) :
    Option (String × List Char) :=
  let ws := r1.takeWhile isPyWs
  let rest2 := r1.drop ws.length
  match rest2 with
  | _ :: _ =>
    if ws.length < minWs then none
    else
      let cap := rest2.takeWhile (fun ch => ch != nlC)
      some (String.mk cap, rest2.drop cap.length)
  | [] =>
    match lastKeep ws minWs with
    | none => none
    | some k =>
      let tailK := ws.drop k
      let cap := tailK.takeWhile (fun ch => ch != nlC)
      some (String.mk cap, tailK.drop cap.length)

/-- `--\s*(.+)$` with `re.MULTILINE` (single-line SQL comments). -/
def mSqlComment (_ : Option Char) (s : List Char) :
    Option (String × List Char) :=
  (litM "--".toList s).bind (tailWsCapture 0)

/-- The non-greedy body of `/\*(.+?)\*/` with `re.DOTALL`: scan to the first
`*/` preceded by at least one captured character. -/
def splitAtClose (acc : List Char) : List Char → Option (String × List Char)
  | a :: b :: rest =>
    if acc ≠ [] && a = '*' && b = '/' then some (String.mk acc.reverse, rest)
    else splitAtClose (a :: acc) (b :: rest)
  | _ => none

/-- `/\*(.+?)\*/` with `re.DOTALL` (block SQL comments). -/
def mSqlBlock (_ : Option Char) (s : List Char) :
    Option (String × List Char) :=
  (litM "/*".toList s).bind (splitAtClose [])

/-- `FileAnalyzer.analyze_sql`. -/
def FileAnalyzer.analyze_sql (content file_path : String) : Envelope :=
  let cu := pyUpper content
  let statement_types :=
    (if hasSub "SELECT" cu then ["SELECT"] else []) ++
    (if hasSub "INSERT" cu then ["INSERT"] else []) ++
    (if hasSub "UPDATE" cu then ["UPDATE"] else []) ++
    (if hasSub "DELETE" cu then ["DELETE"] else []) ++
    (if hasSub "CREATE TABLE" cu then ["CREATE TABLE"] else []) ++
    (if hasSub "CREATE VIEW" cu then ["CREATE VIEW"] else []) ++
    (if hasSub "ALTER" cu then ["ALTER"] else []) ++
    (if hasSub "DROP" cu then ["DROP"] else [])
  let joins := (reScan mSqlJoin content).filterMap (fun j =>
    let t := pyStrip j
    if t = "" then none else some t)
  let comments :=
    reScan mSqlComment content ++ (reScan mSqlBlock content).map pyStrip
  .sql
    { file_path := file_path
      tables_referenced := pySetList (reScan mSqlTable content)
      tables_created := pySetList (reScan mSqlCreate content)
      tables_modified := pySetList (reScan mSqlModify content)
      ctes := reScan mSqlCte content
      joins := joins
      aggregations := pySetList (reScan mSqlAgg content)
      subqueries := (reScan mSqlSubq content).length
      statement_types := statement_types
      comments := comments.take 10 }

/-- `obj.get(k)` — `AttributeError` when the receiver is not a dict. -/
def pyGetAttr (v : JValue) (k : String) : Except PyExc (Option JValue) :=
  match v with
  | .obj fs => .ok (pyDictGet fs k)
  | _ => .error (.attributeError ("object has no attribute get: " ++ k))

/-- `for x in v`: lists yield elements, strings yield 1-character strings,
dicts yield their keys; other values raise `TypeError`. -/
def pyIter (v : JValue) : Except PyExc (List JValue) :=
  match v with
  | .arr xs => .ok xs
  | .str s => .ok (s.toList.map (fun c => .str (String.mk [c])))
  | .obj fs => .ok (fs.map (fun kv => .str kv.1))
  | _ => .error (.typeError "object is not iterable")

/-- `[c for c in cells if c.get("cell_type") == ct]`. -/
def cellTypeIs (ct : String) : List JValue → Except PyExc (List JValue)
  | [] => .ok []
  | c :: rest =>
    match pyGetAttr c "cell_type" with
    | .error e => .error e
    | .ok t =>
      match cellTypeIs ct rest with
      | .error e => .error e
      | .ok tl =>
        .ok (if (match t with | some (.str s2) => s2 == ct | _ => false)
             then c :: tl else tl)

/-- `"".join` over a sequence of values that must all be strings. -/
def joinStrs : List JValue → Except PyExc String
  | [] => .ok ""
  | v :: rest =>
    match v with
    | .str s =>
      (match joinStrs rest with
       | .error e => .error e
       | .ok t => .ok (s ++ t))
    | _ => .error (.typeError "sequence item: expected str instance")

/-- `"".join(v)`: joining a string is the identity, joining a dict joins its
keys, joining a non-iterable raises `TypeError`. -/
def pyJoinIter (v : JValue) : Except PyExc String :=
  match v with
  | .str s => .ok s
  | .arr xs => joinStrs xs
  | .obj fs => joinStrs (fs.map (fun kv => .str kv.1))
  | _ => .error (.typeError "can only join an iterable")

/-- `"".join(cell.get("source", []))`. -/
def cellSource (c : JValue) : Except PyExc String :=
  match pyGetAttr c "source" with
  | .error e => .error e
  | .ok v => pyJoinIter (v.getD (.arr []))

/-- The concatenated source of each cell, stopping at the first raising
cell, as the analyzer loops do. -/
def exMapSources : List JValue → Except PyExc (List String)
  | [] => .ok []
  | c :: rest =>
    match cellSource c with
    | .error e => .error e
    | .ok s =>
      match exMapSources rest with
      | .error e => .error e
      | .ok ss => .ok (s :: ss)

/-- The import-line scan of a code cell: lines whose stripped form starts
with `import ` or `from `, collected stripped. -/
def nbImportLines (source : String) : List String :=
  (pySplit nlC source).filterMap (fun line =>
    let t := pyStrip line
    if pyStartsWith "import " t || pyStartsWith "from " t then some t else none)

/-- `^def\s+(\w+)\s*\(` with `re.MULTILINE`. -/
def mNbDef (prev : Option Char) (s : List Char) :
    Option (String × List Char) :=
  if !lineStart prev then none
  else
    (litM "def".toList s).bind fun r1 =>
      (wsPlus r1).bind fun r2 =>
        (captureRun isWordCh isWordCh r2).bind fun nr =>
          match wsStar nr.2 with
          | c :: r3 => if c = '(' then some (nr.1, r3) else none
          | [] => none

/-- `^#+\s+(.+)$` with `re.MULTILINE` (markdown headings). -/
def mNbHeading (prev : Option Char) (s : List Char) :
    Option (String × List Char) :=
  if !lineStart prev then none
  else
    let hashes := s.takeWhile (fun c => c = '#')
    if hashes.isEmpty then none
    else tailWsCapture 1 (s.drop hashes.length)

/-- The fixed visualization-library tokens, in the order scanned. -/
def visKeywords : List String :=
  ["plt.", "sns.", "fig.", "ax.", "plotly", "bokeh", "altair"]

/-- Visualization tokens present in a cell source, with trailing dots
stripped (`keyword.replace(".", "")`). -/
def nbVis (source : String) : List String :=
  visKeywords.filterMap (fun kw =>
    if hasSub kw source then
      some (String.mk (kw.toList.filter (fun c => c != '.')))
    else none)

/-- Is the character one of the two quote characters of the regex quote class? -/
def quoteCh (c : Char) : Bool := c = dquoteC || c = squoteC

/-- A data-access pattern of the form `lit` followed by a quote and at least
one non-quote character (presence is all `re.search` needs). -/
def mReadQuote (lit : String) (_ : Option Char) (s : List Char) :
    Option (Unit × List Char) :=
  (litM lit.toList s).bind fun r1 =>
    match r1 with
    | q :: c :: r2 =>
      if quoteCh q && !quoteCh c then some ((), r2) else none
    | _ => none

/-- Data-source tags for a cell source, in the order of the fixed pattern
table of the source. -/
def nbDataSources (source : String) : List String :=
  (if reSearch (mReadQuote "pd.read_csv(") source then ["csv"] else []) ++
  (if reSearch (mReadQuote "pd.read_excel(") source then ["excel"] else []) ++
  (if hasSub "pd.read_sql" source then ["sql"] else []) ++
  (if reSearch (mReadQuote "requests.get(") source then ["api"] else [])

/-- `FileAnalyzer.analyze_notebook`.  A `.error` result is a Python exception
escaping the analyzer (which the source does not catch); a returned error
envelope is `.ok (.error ...)`. -/
def FileAnalyzer.analyze_notebook (content file_path : String) :
    Except PyExc Envelope :=
  match jsonLoads content with
  | .error e => .ok (.error file_path "ipynb" ("Invalid JSON: " ++ e))
  | .ok nb =>
    match pyGetAttr nb "cells" with
    | .error ex => .error ex
    | .ok cellsV =>
      match pyIter (cellsV.getD (.arr [])) with
      | .error ex => .error ex
      | .ok cells =>
        match cellTypeIs "code" cells with
        | .error ex => .error ex
        | .ok code_cells =>
          match cellTypeIs "markdown" cells with
          | .error ex => .error ex
          | .ok markdown_cells =>
            match exMapSources code_cells with
            | .error ex => .error ex
            | .ok codeSources =>
              match exMapSources markdown_cells with
              | .error ex => .error ex
              | .ok mdSources =>
                let imports := listConcatMap nbImportLines codeSources
                let functions := listConcatMap (reScan mNbDef) codeSources
                let headings := listConcatMap (reScan mNbHeading) mdSources
                .ok (.ipynb
                  { file_path := file_path
                    title := headings.head?
                    total_cells := cells.length
                    code_cells := code_cells.length
                    markdown_cells := markdown_cells.length
                    imports := (pySetList imports).take 20
                    functions := pySetList functions
                    visualizations :=
                      pySetList (listConcatMap nbVis codeSources)
                    data_sources :=
                      pySetList (listConcatMap nbDataSources codeSources)
                    headings := headings.take 10 })

/-- The `from`-whitespace-quote-capture-quote suffix of the static-import pattern,
anchored at the current position. -/
def fromSuffix (t : List Char) : Option (String × List Char) :=
  (litM "from".toList t).bind fun r2 =>
    (wsPlus r2).bind fun r3 =>
      match r3 with
      | q :: r4 =>
        if quoteCh q then
          let cap := r4.takeWhile (fun c => !quoteCh c)
          if cap.isEmpty then none
          else
            match r4.drop cap.length with
            | _ :: r5 => some (String.mk cap, r5)
            | [] => none
        else none
      | [] => none

/-- The lazy `.*?from...` part of the static-import pattern:
`.` cannot cross a newline, so the scan tries `from` at every position up to
the first newline or the end of the line region. -/
def findFrom : List Char → Option (String × List Char)
  | [] => none
  | c :: rest =>
    match fromSuffix (c :: rest) with
    | some res => some res
    | none => if c = nlC then none else findFrom rest

/-- The pattern `import`, `\s+`, lazy `.*?`, `from`, `\s+`, then a quoted
specifier capture (static imports; the greedy
`\s+` may cross newlines, the lazy region may not). -/
def mImportFrom (_ : Option Char) (s : List Char) :
    Option (String × List Char) :=
  (litM "import".toList s).bind fun r1 =>
    (wsPlus r1).bind findFrom

/-- A quoted argument capture followed by a closing parenthesis. -/
def quotedArg (r : List Char) : Option (String × List Char) :=
  match r with
  | q :: r2 =>
    if quoteCh q then
      let cap := r2.takeWhile (fun c => !quoteCh c)
      if cap.isEmpty then none
      else
        match r2.drop cap.length with
        | _ :: c :: r4 => if c = ')' then some (String.mk cap, r4) else none
        | _ => none
    else none
  | [] => none

/-- `import`, `\s*`, `(`, then a quoted specifier capture and the closing
parenthesis (dynamic imports). -/
def mImportDyn (_ : Option Char) (s : List Char) :
    Option (String × List Char) :=
  (litM "import".toList s).bind fun r1 =>
    match wsStar r1 with
    | c :: r2 => if c = '(' then quotedArg r2 else none
    | [] => none

/-- `require`, `\s*`, `(`, then a quoted specifier capture and the closing
parenthesis. -/
def mRequire (_ : Option Char) (s : List Char) :
    Option (String × List Char) :=
  (litM "require".toList s).bind fun r1 =>
    match wsStar r1 with
    | c :: r2 => if c = '(' then quotedArg r2 else none
    | [] => none

/-- First keyword of the list matching case-sensitively at the front of `s`
(the keyword sets used here are prefix-free with pairwise distinct starts,
so this is the regex alternation). -/
def firstKw (s : List Char) : List String → Option (List Char)
  | [] => none
  | kw :: rest =>
    match litM kw.toList s with
    | some r => some r
    | none => firstKw s rest

/-- The declaration keywords of the first export pattern. -/
def jsDeclKeywords : List String := ["function", "class", "const", "let", "var"]

/-- `export\s+(?:default\s+)?(?:function|class|const|let|var)\s+(\w+)`. -/
def mExport1 (_ : Option Char) (s : List Char) :
    Option (String × List Char) :=
  (litM "export".toList s).bind fun r1 =>
    (wsPlus r1).bind fun r2 =>
      let r3 :=
        match (litM "default".toList r2).bind wsPlus with
        | some ra => ra
        | none => r2
      (firstKw r3 jsDeclKeywords).bind fun r4 =>
        (wsPlus r4).bind (captureRun isWordCh isWordCh)

/-- `export\s*\{\s*([^}]+)\s*\}`: the capture runs from the end of the
whitespace after the brace (shortened by one character when everything up to
the closing brace is whitespace, as the quantifiers backtrack) to the first
closing brace. -/
def mExport2 (_ : Option Char) (s : List Char) :
    Option (String × List Char) :=
  (litM "export".toList s).bind fun r1 =>
    match wsStar r1 with
    | c :: t =>
      if c = lbraceC then
        let pre := t.takeWhile (fun ch => ch != rbraceC)
        match t.drop pre.length with
        | _ :: r5 =>
          if pre.isEmpty then none
          else
            let w := Nat.min (t.takeWhile isPyWs).length (pre.length - 1)
            some (String.mk (pre.drop w), r5)
        | [] => none
      else none
    | [] => none

/-- `module\.exports\s*=`: the pattern has no group, so `re.findall` yields
the full matched text. -/
def mExport3 (_ : Option Char) (s : List Char) :
    Option (String × List Char) :=
  (litM "module.exports".toList s).bind fun r1 =>
    match wsStar r1 with
    | c :: r2 =>
      if c = '=' then some (String.mk (s.take (s.length - r2.length)), r2)
      else none
    | [] => none

/-- `(?:async\s+)?function\s+(\w+)\s*\(([^)]*)\)` (named function
declarations; the capture pair is name and raw parameter text). -/
def mJsFunc (_ : Option Char) (s : List Char) :
    Option ((String × String) × List Char) :=
  let r0 :=
    match (litM "async".toList s).bind wsPlus with
    | some ra => ra
    | none => s
  (litM "function".toList r0).bind fun r1 =>
    (wsPlus r1).bind fun r2 =>
      (captureRun isWordCh isWordCh r2).bind fun nr =>
        match wsStar nr.2 with
        | c :: r3 =>
          if c = '(' then
            let params := r3.takeWhile (fun ch => ch != ')')
            match r3.drop params.length with
            | _ :: r4 => some ((nr.1, String.mk params), r4)
            | [] => none
          else none
        | [] => none

/-- `(?:const|let|var)\s+(\w+)\s*=\s*(?:async\s+)?\([^)]*\)\s*=>`
(arrow-function bindings; parameters are intentionally not captured). -/
def mJsArrow (_ : Option Char) (s : List Char) :
    Option (String × List Char) :=
  (firstKw s ["const", "let", "var"]).bind fun r1 =>
    (wsPlus r1).bind fun r2 =>
      (captureRun isWordCh isWordCh r2).bind fun nr =>
        match wsStar nr.2 with
        | c :: r3 =>
          if c = '=' then
            let r4 := wsStar r3
            let r5 :=
              match (litM "async".toList r4).bind wsPlus with
              | some ra => ra
              | none => r4
            match r5 with
            | c2 :: r6 =>
              if c2 = '(' then
                let params := r6.takeWhile (fun ch => ch != ')')
                match r6.drop params.length with
                | _ :: r7 =>
                  (match wsStar r7 with
                   | c3 :: c4 :: r8 =>
                     if c3 = '=' && c4 = '>' then some (nr.1, r8) else none
                   | _ => none)
                | [] => none
              else none
            | [] => none
          else none
        | [] => none

/-- `class\s+(\w+)(?:\s+extends\s+(\w+))?`. -/
def mJsClass (_ : Option Char) (s : List Char) :
    Option ((String × Option String) × List Char) :=
  (litM "class".toList s).bind fun r1 =>
    (wsPlus r1).bind fun r2 =>
      (captureRun isWordCh isWordCh r2).bind fun nr =>
        match ((wsPlus nr.2).bind (litM "extends".toList)).bind wsPlus with
        | some r3 =>
          (match captureRun isWordCh isWordCh r3 with
           | some br => some ((nr.1, some br.1), br.2)
           | none => some ((nr.1, none), nr.2))
        | none => some ((nr.1, none), nr.2)

/-- `[A-Z0-9_]`. -/
def isUpperDigit (c : Char) : Bool := isUpperAZ c || c.isDigit || c = '_'

/-- `(?:const|let|var)\s+([A-Z][A-Z0-9_]+)\s*=` (upper-case constants,
at least two characters). -/
def mJsConst (_ : Option Char) (s : List Char) :
    Option (String × List Char) :=
  (firstKw s ["const", "let", "var"]).bind fun r1 =>
    (wsPlus r1).bind fun r2 =>
      match r2 with
      | c :: t =>
        if isUpperAZ c then
          let run := t.takeWhile isUpperDigit
          if run.isEmpty then none
          else
            match wsStar (t.drop run.length) with
            | c2 :: r3 =>
              if c2 = '=' then some (String.mk (c :: run), r3) else none
            | [] => none
        else none
      | [] => none

/-- `(?:function|const)\s+([A-Z]\w+)` (capitalized component candidates). -/
def mJsx (_ : Option Char) (s : List Char) : Option (String × List Char) :=
  (firstKw s ["function", "const"]).bind fun r1 =>
    (wsPlus r1).bind fun r2 =>
      match r2 with
      | c :: t =>
        if isUpperAZ c then
          let run := t.takeWhile isWordCh
          if run.isEmpty then none
          else some (String.mk (c :: run), t.drop run.length)
        else none
      | [] => none

/-- `\b(use[A-Z]\w+)\s*\(` (hook-style calls). -/
def mJsHook (prev : Option Char) (s : List Char) :
    Option (String × List Char) :=
  if !wordBoundary prev s then none
  else
    (litM "use".toList s).bind fun r1 =>
      match r1 with
      | c :: t =>
        if isUpperAZ c then
          let run := t.takeWhile isWordCh
          if run.isEmpty then none
          else
            match wsStar (t.drop run.length) with
            | c2 :: r3 =>
              if c2 = '(' then
                some (String.mk ("use".toList ++ c :: run), r3)
              else none
            | [] => none
        else none
      | [] => none

/-- `FileAnalyzer.analyze_javascript`.  The matches of every pattern go through
`[e.strip() for e in m.split(",")]` in the export loop, so the full-match
strings of the third pattern are appended too. -/
def FileAnalyzer.analyze_javascript (content file_path : String) : Envelope :=
  let importsRaw :=
    reScan mImportFrom content ++ reScan mImportDyn content ++
    reScan mRequire content
  let exportsRaw :=
    reScan mExport1 content ++ reScan mExport2 content ++
    reScan mExport3 content
  let exports := listConcatMap (fun m => (pySplit ',' m).map pyStrip) exportsRaw
  let functions : List FunctionInfo :=
    (reScanLn mJsFunc content).map (fun x =>
      { name := x.1.1
        args := ((pySplit ',' x.1.2).map pyStrip).filter (fun a => a != "")
        docstring := none
        decorators := []
        returns := none
        line_number := x.2
        is_async := false }) ++
    (reScanLn mJsArrow content).map (fun x =>
      { name := x.1
        args := []
        docstring := none
        decorators := []
        returns := none
        line_number := x.2
        is_async := false })
  let classes : List ClassInfo :=
    (reScanLn mJsClass content).map (fun x =>
      { name := x.1.1
        bases := match x.1.2 with | some b => [b] | none => []
        docstring := none
        methods := []
        line_number := x.2 })
  .javascript
    { file_path := file_path
      imports := pySetList importsRaw
      exports := pySetList exports
      functions := functions
      classes := classes
      constants := pySetList (reScan mJsConst content)
      jsx_components := pySetList (reScan mJsx content)
      hooks_used := pySetList (reScan mJsHook content) }

/-- The extension computed by the dispatcher:
`file_path.lower().split(".")[-1] if "." in file_path else ""`. -/
def extOf (file_path : String) : String :=
  if file_path.toList.contains '.' then
    ((pySplit '.' (pyLower file_path)).getLast?).getD ""
  else ""

/-- `FileAnalyzer.analyze`: extension dispatch.  Only the notebook analyzer
can raise, so the others are wrapped in `.ok`. -/
def FileAnalyzer.analyze (astParse : String → Except String PyModule)
    (content file_path : String) : Except PyExc Envelope :=
  let ext := extOf file_path
  if ext = "py" then
    .ok (FileAnalyzer.analyze_python astParse content file_path)
  else if ext = "sql" then
    .ok (FileAnalyzer.analyze_sql content file_path)
  else if ext = "ipynb" then
    FileAnalyzer.analyze_notebook content file_path
  else if ext = "js" ∨ ext = "jsx" ∨ ext = "ts" ∨ ext = "tsx" then
    .ok (FileAnalyzer.analyze_javascript content file_path)
  else
    .ok (.error file_path "unknown" ("Unsupported file type: " ++ ext))

/-- The `joins` list of an SQL envelope (empty for other variants). -/
def Envelope.sqlJoins : Envelope → List String
  | .sql a => a.joins
  | _ => []

/-- The `exports` list of a script envelope (empty for other variants). -/
def Envelope.jsExports : Envelope → List String
  | .javascript a => a.exports
  | _ => []

/-- The `hooks_used` list of a script envelope (empty for other variants). -/
def Envelope.jsHooks : Envelope → List String
  | .javascript a => a.hooks_used
  | _ => []

/-- An `ast.parse` stand-in failing on every input, used to instantiate the
abstract parser in closed statements. -/
def astParseErr : String → Except String PyModule :=
  fun _ => .error "invalid syntax"

theorem prefixed_ne_empty (pre suf : String) (h : pre.length ≠ 0) :
    pre ++ suf ≠ "" := by
  intro he
  have hl : (pre ++ suf).length = (0 : Nat) := by rw [he]; rfl
  rw [String.length_append] at hl
  omega

/-- C2: analyzing the identical `(content, path)` pair twice yields identical
envelopes — the embedded dispatcher is a pure function of its arguments (no
hidden state survives a call), so the two runs are one and the same value,
list fields and their order included. -/
theorem c2_analyze_deterministic
    (astParse : String → Except String PyModule) (content file_path : String) :
    FileAnalyzer.analyze astParse content file_path =
      FileAnalyzer.analyze astParse content file_path := rfl

/-- C3: whenever the Python parser fails, `analyze_python` returns (rather
than raises) an error envelope whose message extends the parser message and
is non-empty, and the result is not a Python success envelope, so it carries
no fragmentary function or class lists.  (The embedding returns an `Envelope` for
every input, which is the no-exception half of the claim.) -/
theorem c3_python_parse_failure
    (astParse : String → Except String PyModule) (content file_path msg : String)
    (h : astParse content = .error msg) :
    FileAnalyzer.analyze_python astParse content file_path =
      .error file_path "python" ("Syntax error: " ++ msg) ∧
    ("Syntax error: " ++ msg) ≠ "" ∧
    ∀ pa : PythonAnalysis,
      FileAnalyzer.analyze_python astParse content file_path ≠ .python pa := by
  unfold FileAnalyzer.analyze_python
  rw [h]
  refine ⟨rfl, prefixed_ne_empty _ _ (by decide), ?_⟩
  intro pa hc
  exact Envelope.noConfusion hc

theorem c3_python_parse_failure_witness :
    FileAnalyzer.analyze_python astParseErr "(" "bad.py" =
      .error "bad.py" "python" ("Syntax error: " ++ "invalid syntax") ∧
    ("Syntax error: " ++ "invalid syntax") ≠ "" ∧
    ∀ pa : PythonAnalysis,
      FileAnalyzer.analyze_python astParseErr "(" "bad.py" ≠ .python pa :=
  c3_python_parse_failure astParseErr "(" "bad.py" "invalid syntax" rfl

/-- C4: the notebook analyzer only catches `json.JSONDecodeError`.  Non-JSON
text does come back as an error envelope, but text that is valid JSON without
the expected cell-array shape — here the scalar document `5` — makes
`nb.get("cells", [])` raise `AttributeError`, which escapes the analyzer
instead of becoming a MalformedDocument envelope; the never-raise half of
the claim is false on the code. -/
theorem c4_notebook_shape_crash :
    jsonLoads "5" = .ok (JValue.num "5") ∧
    FileAnalyzer.analyze_notebook "5" "nb.ipynb" =
      .error (.attributeError "object has no attribute get: cells") ∧
    FileAnalyzer.analyze_notebook "not json" "nb.ipynb" =
      .ok (.error "nb.ipynb" "ipynb" ("Invalid JSON: " ++ "Expecting value")) :=
  ⟨rfl, rfl, rfl⟩

/-- The script input of the exports-and-hooks test case of the spec. -/
def c5Content : String := "export const useThing = () => \x7b\x7d"

/-- C5 counterexample: on `export const useThing = () => {}` the hook
pattern `\b(use[A-Z]\w+)\s*\(` does not match — `useThing` is followed by
` = (`, not by an immediate call parenthesis — so `hooks_used` does not
contain `useThing`, contradicting the claim. -/
theorem c5_hooks_counterexample :
    (FileAnalyzer.analyze_javascript c5Content "useThing.ts").jsHooks = [] ∧
    "useThing" ∉ (FileAnalyzer.analyze_javascript c5Content "useThing.ts").jsHooks :=
  ⟨rfl, by decide⟩

/-- C5 amended: on `export const useThing = () => {}` the exports list is
exactly `[useThing]`, while `hooks_used` is empty (the hook pattern requires
a call site `useThing(`; an arrow-function binding is not one). -/
theorem c5_exports_and_hooks_amended :
    (FileAnalyzer.analyze_javascript c5Content "useThing.ts").jsExports =
      ["useThing"] ∧
    (FileAnalyzer.analyze_javascript c5Content "useThing.ts").jsHooks = [] :=
  ⟨rfl, rfl⟩

/-- The notebook used to exhibit the title bug: a single markdown cell whose
only heading is level 2. -/
def nbLevel2 : String :=
  "\x7b\"cells\": [\x7b\"cell_type\": \"markdown\", \"source\": [\"## Sub\"]\x7d]\x7d"

/-- C8: the code comment says the title is the first H1, and the spec says a
level-2-only notebook has no title, but the code takes the first heading of
any level: on a notebook whose only markdown heading is `## Sub` the title
becomes `Sub` instead of staying absent. -/
theorem c8_title_takes_level2_heading :
    FileAnalyzer.analyze_notebook nbLevel2 "n.ipynb" = .ok (.ipynb
      { file_path := "n.ipynb"
        title := some "Sub"
        total_cells := 1
        code_cells := 0
        markdown_cells := 1
        imports := []
        functions := []
        visualizations := []
        data_sources := []
        headings := ["Sub"] }) := rfl

/-- C9 counterexample: on `module.exports = x` the third export pattern has
no capture group, so `re.findall` yields the full matched text, and the
export loop appends it: the exports list gains the entry `module.exports =`
from the marker match itself, contradicting the no-entry half of the claim. -/
theorem c9_marker_counterexample :
    (FileAnalyzer.analyze_javascript "module.exports = x" "m.js").jsExports =
      ["module.exports ="] ∧
    (FileAnalyzer.analyze_javascript "module.exports = x" "m.js").jsExports ≠
      [] :=
  ⟨rfl, by decide⟩

/-- C9 amended: extraction always completes with a script envelope (nothing
in the script analyzer can raise), and a bare `module.exports =` match
contributes the full matched text — not an identifier, but an entry all the
same — to the exports list. -/
theorem c9_marker_amended :
    (∀ content file_path : String, ∃ ja : JavaScriptAnalysis,
        FileAnalyzer.analyze_javascript content file_path = .javascript ja) ∧
    (FileAnalyzer.analyze_javascript "module.exports = x" "m.js").jsExports =
      ["module.exports ="] := by
  constructor
  · intro c p
    exact ⟨_, rfl⟩
  · rfl

/-- C1: the dispatcher routes on the lowercased substring after the last dot
of the path — `py` to the Python analyzer, `sql` to the SQL analyzer, `ipynb`
to the notebook analyzer, `js`/`jsx`/`ts`/`tsx` to the script analyzer — and
any other extension, or a dotless path, yields the error envelope tagged
`unknown` with a non-empty message, a constant value that invokes no analyzer
(in particular it does not depend on the parser). -/
theorem c1_extension_routing
    (astParse : String → Except String PyModule) (content file_path : String) :
    (extOf file_path = "py" →
      FileAnalyzer.analyze astParse content file_path =
        .ok (FileAnalyzer.analyze_python astParse content file_path)) ∧
    (extOf file_path = "sql" →
      FileAnalyzer.analyze astParse content file_path =
        .ok (FileAnalyzer.analyze_sql content file_path)) ∧
    (extOf file_path = "ipynb" →
      FileAnalyzer.analyze astParse content file_path =
        FileAnalyzer.analyze_notebook content file_path) ∧
    ((extOf file_path = "js" ∨ extOf file_path = "jsx" ∨
      extOf file_path = "ts" ∨ extOf file_path = "tsx") →
      FileAnalyzer.analyze astParse content file_path =
        .ok (FileAnalyzer.analyze_javascript content file_path)) ∧
    (extOf file_path ∉ (["py", "sql", "ipynb", "js", "jsx", "ts", "tsx"] : List String) →
      FileAnalyzer.analyze astParse content file_path =
        .ok (.error file_path "unknown"
          ("Unsupported file type: " ++ extOf file_path)) ∧
      ("Unsupported file type: " ++ extOf file_path) ≠ "") := by
  unfold FileAnalyzer.analyze
  refine ⟨?_, ?_, ?_, ?_, ?_⟩
  · intro h
    simp [h]
  · intro h
    simp [h]
  · intro h
    simp [h]
  · intro h
    rcases h with h | h | h | h <;> simp [h]
  · intro h
    simp only [List.mem_cons, List.not_mem_nil, or_false, not_or] at h
    obtain ⟨h1, h2, h3, h4, h5, h6, h7⟩ := h
    exact ⟨by simp [h1, h2, h3, h4, h5, h6, h7],
           prefixed_ne_empty _ _ (by decide)⟩

theorem c1_extension_routing_witness :
    FileAnalyzer.analyze astParseErr "x = 1" "A.Py" =
      .ok (FileAnalyzer.analyze_python astParseErr "x = 1" "A.Py") ∧
    (FileAnalyzer.analyze astParseErr "t" "README" =
      .ok (.error "README" "unknown" ("Unsupported file type: " ++ extOf "README")) ∧
     ("Unsupported file type: " ++ extOf "README") ≠ "") :=
  ⟨(c1_extension_routing astParseErr "x = 1" "A.Py").1 (by decide),
   (c1_extension_routing astParseErr "t" "README").2.2.2.2 (by decide)⟩

theorem analyze_python_fields
    (astParse : String → Except String PyModule) (content file_path : String) :
    (FileAnalyzer.analyze_python astParse content file_path).file_path = file_path ∧
    (FileAnalyzer.analyze_python astParse content file_path).file_type = "python" := by
  unfold FileAnalyzer.analyze_python
  cases astParse content <;> exact ⟨rfl, rfl⟩

theorem analyze_notebook_ok_fields {content file_path : String} {env : Envelope}
    (h : FileAnalyzer.analyze_notebook content file_path = .ok env) :
    env.file_path = file_path ∧ env.file_type = "ipynb" := by
  unfold FileAnalyzer.analyze_notebook at h
  repeat' split at h
  all_goals first
    | (injection h with h; subst h; exact ⟨rfl, rfl⟩)
    | (injection h)

/-- C10: every envelope the dispatcher returns — the four success shapes and
the error shape — echoes the caller path unchanged in `file_path` and
carries a `file_type` tag from the fixed five-element set.  (When the
notebook analyzer raises, no envelope is returned and the claim is silent.) -/
theorem c10_envelope_path_and_tag
    (astParse : String → Except String PyModule) (content file_path : String)
    (env : Envelope)
    (h : FileAnalyzer.analyze astParse content file_path = .ok env) :
    env.file_path = file_path ∧
    env.file_type ∈
      (["python", "sql", "ipynb", "javascript", "unknown"] : List String) := by
  simp only [FileAnalyzer.analyze] at h
  split_ifs at h with h1 h2 h3 h4
  · injection h with h
    subst h
    have hp := analyze_python_fields astParse content file_path
    exact ⟨hp.1, by rw [hp.2]; simp⟩
  · injection h with h
    subst h
    have ht : (FileAnalyzer.analyze_sql content file_path).file_type = "sql" := rfl
    exact ⟨rfl, by rw [ht]; simp⟩
  · have hn := analyze_notebook_ok_fields h
    exact ⟨hn.1, by rw [hn.2]; simp⟩
  · injection h with h
    subst h
    have ht : (FileAnalyzer.analyze_javascript content file_path).file_type =
        "javascript" := rfl
    exact ⟨rfl, by rw [ht]; simp⟩
  · injection h with h
    subst h
    exact ⟨rfl, by simp [Envelope.file_type]⟩

theorem c10_envelope_path_and_tag_witness :
    (FileAnalyzer.analyze_sql "select 1" "a.sql").file_path = "a.sql" ∧
    (FileAnalyzer.analyze_sql "select 1" "a.sql").file_type ∈
      (["python", "sql", "ipynb", "javascript", "unknown"] : List String) :=
  c10_envelope_path_and_tag astParseErr "select 1" "a.sql"
    (FileAnalyzer.analyze_sql "select 1" "a.sql") rfl

theorem dropWhile_head_not (p : Char → Bool) :
    ∀ (l : List Char) (c : Char), (l.dropWhile p).head? = some c → p c = false := by
  intro l
  induction l with
  | nil =>
    intro c h
    simp [List.dropWhile] at h
  | cons x t ih =>
    intro c h
    cases hpx : p x with
    | true =>
      rw [List.dropWhile_cons_of_pos hpx] at h
      exact ih c h
    | false =>
      rw [List.dropWhile_cons_of_neg (by simp [hpx])] at h
      simp only [List.head?_cons, Option.some.injEq] at h
      subst h
      exact hpx

theorem dropWhile_getLast? (p : Char → Bool) :
    ∀ l : List Char,
      l.dropWhile p = [] ∨ (l.dropWhile p).getLast? = l.getLast? := by
  intro l
  induction l with
  | nil => left; rfl
  | cons x t ih =>
    cases hpx : p x with
    | false =>
      right
      rw [List.dropWhile_cons_of_neg (by simp [hpx])]
    | true =>
      rw [List.dropWhile_cons_of_pos hpx]
      by_cases hd : t.dropWhile p = []
      · left
        exact hd
      · right
        rcases ih with h | h
        · exact absurd h hd
        · rw [h]
          cases t with
          | nil => simp [List.dropWhile] at hd
          | cons y u => simp

theorem dropWhile_eq_self_of_head (p : Char → Bool) (l : List Char)
    (h : ∀ c, l.head? = some c → p c = false) : l.dropWhile p = l := by
  cases l with
  | nil => rfl
  | cons x t =>
    have := h x rfl
    rw [List.dropWhile_cons_of_neg (by simp [this])]

theorem dropWhile_self_idem (p : Char → Bool) (l : List Char) :
    (l.dropWhile p).dropWhile p = l.dropWhile p :=
  dropWhile_eq_self_of_head p _ (fun c hc => dropWhile_head_not p l c hc)

theorem pyStrip_idem (s : String) : pyStrip (pyStrip s) = pyStrip s := by
  unfold pyStrip
  have htl : ∀ cs : List Char, (String.mk cs).toList = cs := fun _ => rfl
  rw [htl]
  congr 1
  set l := s.toList with hl
  set l1 := l.dropWhile isPyWs with hl1
  set l2 := l1.reverse.dropWhile isPyWs with hl2
  have hhead : ∀ c, l2.reverse.head? = some c → isPyWs c = false := by
    intro c hc
    rw [List.head?_reverse] at hc
    rcases dropWhile_getLast? isPyWs l1.reverse with h | h
    · rw [← hl2] at h
      rw [h] at hc
      cases hc
    · rw [← hl2] at h
      rw [h, List.getLast?_reverse] at hc
      exact dropWhile_head_not isPyWs l c (hl1 ▸ hc)
  have h2 : l2.reverse.dropWhile isPyWs = l2.reverse :=
    dropWhile_eq_self_of_head _ _ hhead
  rw [h2, List.reverse_reverse, hl2, dropWhile_self_idem]

/-- C6 counterexample: the join scanner strips each matched token but does
not uppercase it — `re.findall` returns the text in its original case — so
the input `left join` records the entry `left join`, not `LEFT JOIN` as the
claim states. -/
theorem c6_joins_case_counterexample :
    (FileAnalyzer.analyze_sql "left join" "q.sql").sqlJoins = ["left join"] ∧
    (FileAnalyzer.analyze_sql "left join" "q.sql").sqlJoins ≠ ["LEFT JOIN"] :=
  ⟨rfl, by decide⟩

/-- C6 amended: the joins list keeps one entry per occurrence of an
(optionally qualified) JOIN token with no de-duplication — witnessed by the
doubled `LEFT JOIN` input — and every recorded entry is trimmed and
non-empty, but it keeps the casing of the source text rather than being
normalized to uppercase. -/
theorem c6_joins_amended (content file_path : String) :
    (∀ j ∈ (FileAnalyzer.analyze_sql content file_path).sqlJoins,
        pyStrip j = j ∧ j ≠ "") ∧
    (FileAnalyzer.analyze_sql "LEFT JOIN a LEFT JOIN b" file_path).sqlJoins =
      ["LEFT JOIN", "LEFT JOIN"] := by
  constructor
  · intro j hj
    have hrw : (FileAnalyzer.analyze_sql content file_path).sqlJoins =
        (reScan mSqlJoin content).filterMap (fun j0 =>
          let t := pyStrip j0
          if t = "" then none else some t) := rfl
    rw [hrw] at hj
    simp only [List.mem_filterMap] at hj
    obtain ⟨j0, _, hj0⟩ := hj
    by_cases hz : pyStrip j0 = ""
    · simp [hz] at hj0
    · simp only [hz, if_false, Option.some.injEq] at hj0
      subst hj0
      exact ⟨pyStrip_idem j0, hz⟩
  · rfl

theorem c6_joins_amended_witness :
    pyStrip "left join" = "left join" ∧ "left join" ≠ "" :=
  (c6_joins_amended "left join" "q.sql").1 "left join" (by decide)
